import Mathlib

/-!
Verification of the ClarifyMeet AI minutes generator
(`src/streamlit_app.py`) against its specification.

The program's logical core is embedded shallowly:

* Python dictionaries produced by `json.loads` are modelled as ordered
  association lists over `JsonVal` (Python `dict` preserves insertion
  order; `{**a, **b}` updates values of existing keys in place and
  appends new keys).
* `json.loads` itself is Python standard-library code, not code of this
  repository; its outcome is abstracted as an `Option JsonVal` argument
  (`none` models a raised `json.JSONDecodeError`).
* The Streamlit session state and the one-shot generation handler are
  modelled as explicit state passing; the outcome of the single network
  call (`client.models.generate_content`) is an explicit argument.
-/

set_option autoImplicit false

/-- JSON values as produced by Python's `json.loads`: strings, numbers,
booleans, null, arrays and objects (ordered key/value lists). Numbers are
modelled as integers; no claim depends on numeric values. -/
inductive JsonVal where
  | str (s : String)
  | num (n : Int)
  | bool (b : Bool)
  | null
  | arr (elems : List JsonVal)
  | obj (fields : List (String × JsonVal))

/-- A Python dictionary with string keys, as an ordered association list. -/
abbrev Dict := List (String × JsonVal)

/-- Lookup in an ordered association list: the first binding of the key,
modelling Python's `d[k]` / `d.get(k)` (a Python `dict` has unique keys,
so first binding = the binding). -/
def alistGet {α : Type} : List (String × α) → String → Option α
  | [], _ => none
  | (k', v) :: d, k => if k = k' then some v else alistGet d k

/-- Whether the key is bound, modelling Python's `k in d`. -/
def alistContains {α : Type} (d : List (String × α)) (k : String) : Bool :=
  d.any (fun p => decide (p.1 = k))

/-- Insertion modelling Python dict assignment `d[k] = v`: an existing
binding is updated in place (keeping its position), a new key is appended
at the end. -/
def alistInsert {α : Type} (d : List (String × α)) (k : String) (v : α) :
    List (String × α) :=
  if alistContains d k then
    d.map (fun p => if p.1 = k then (k, v) else p)
  else
    d ++ [(k, v)]

/-- Python's `{**a, **b}`: start from `a` and assign every binding of `b`
in order. -/
def alistMerge {α : Type} (a b : List (String × α)) : List (String × α) :=
  b.foldl (fun acc p => alistInsert acc p.1 p.2) a

/-- Source `_blank_minutes` (streamlit_app.py lines 59–66): the
fully-populated empty Minutes template. -/
def blankMinutes : Dict :=
  [ ("summary", JsonVal.str ""),
    ("key_points", JsonVal.arr []),
    ("decisions", JsonVal.arr []),
    ("action_items", JsonVal.arr []),
    ("risks_open_questions", JsonVal.arr []) ]

/-- The five field names of the Minutes schema. -/
def minutesKeys : List String :=
  ["summary", "key_points", "decisions", "action_items", "risks_open_questions"]

/-- Outcome of the secrets-store lookup `st.secrets["GEMINI_API_KEY"]`:
either a value, or an exception (no `secrets.toml`, or key missing). -/
inductive SecretsLookup where
  | ok (value : String)
  | raises

/-- Source `load_api_key` (lines 40–56). The secrets store and the
environment variable `GEMINI_API_KEY` are the function's two external
reads, passed here explicitly. Python truthiness on a string is
non-emptiness; `os.getenv` returns `None` (here `none`) when the variable
is absent. An exception from the secrets lookup is caught (`except
Exception`) and treated as not found. -/
def load_api_key (secrets : SecretsLookup) (env : Option String) : String :=
  let envStep : String :=
    match env with
    | some w => if w ≠ "" then w else ""
    | none => ""
  match secrets with
  | SecretsLookup.ok v => if v ≠ "" then v else envStep
  | SecretsLookup.raises => envStep

/-- The Python type name of a JSON value, as it appears in the `TypeError`
raised by `{**d, **x}` when `x` is not a mapping. -/
def pyTypeName : JsonVal → String
  | JsonVal.str _ => "str"
  | JsonVal.num _ => "int"
  | JsonVal.bool _ => "bool"
  | JsonVal.null => "NoneType"
  | JsonVal.arr _ => "list"
  | JsonVal.obj _ => "dict"

/-- Result of the tail of `summarize_meeting` (lines 124–129): either a
returned dictionary, or an uncaught `TypeError` propagating out (the
`except` clause catches only `json.JSONDecodeError`). -/
inductive SummarizeResult where
  | ok (d : Dict)
  | typeError (msg : String)

/-- The post-response logic of `summarize_meeting` (lines 124–129), as a
function of the response text and of the outcome of `json.loads raw_text`
(`none` = `JSONDecodeError` raised):

* parse failure → return `{"raw_response": raw_text}`;
* parsed a JSON object → return `{**_blank_minutes(), **parsed}`;
* parsed any other JSON value → `{**_blank_minutes(), **parsed}` raises
  `TypeError` (`'<type>' object is not a mapping`), which is not caught
  here. -/
def summarize_post (raw_text : String) (parsed : Option JsonVal) : SummarizeResult :=
  match parsed with
  | none => SummarizeResult.ok [("raw_response", JsonVal.str raw_text)]
  | some (JsonVal.obj fields) => SummarizeResult.ok (alistMerge blankMinutes fields)
  | some v => SummarizeResult.typeError ("'" ++ pyTypeName v ++ "' object is not a mapping")

/-- Source `format_action_item` (lines 132–143). An ActionItem record's
fields are text (per the schema sent to the model), so the record is
embedded as a string-valued dictionary. `item.get("owner", "Unassigned")`
returns the bound value whenever the key is present (even if empty);
`if due:` / `if priority:` is Python truthiness: present and non-empty. -/
def format_action_item (item : List (String × String)) : String :=
  let owner := (alistGet item "owner").getD "Unassigned"
  let task := (alistGet item "task").getD "Task not specified"
  let due := alistGet item "due"
  let priority := alistGet item "priority"
  let parts := ["**" ++ owner ++ "** — " ++ task]
  let parts :=
    match due with
    | some d => if d ≠ "" then parts ++ ["**Due:** " ++ d] else parts
    | none => parts
  let parts :=
    match priority with
    | some p => if p ≠ "" then parts ++ ["**Priority:** " ++ p] else parts
    | none => parts
  String.intercalate " | " parts

/-- The hexadecimal digit used by Python's `json` escapes (lowercase). -/
def hexDigit (n : Nat) : Char :=
  if n < 10 then Char.ofNat (48 + n) else Char.ofNat (87 + n)

/-- Four-digit lowercase hexadecimal, as in Python's `\u00XX` escapes. -/
def hex4 (n : Nat) : String :=
  ⟨[hexDigit (n / 4096 % 16), hexDigit (n / 256 % 16),
    hexDigit (n / 16 % 16), hexDigit (n % 16)]⟩

/-- Escape of one character in a JSON string per Python's
`json.dumps(..., ensure_ascii=False)`: backslash, quote, the named control
escapes, `\u00XX` for the remaining control characters, everything else
(all non-ASCII included) literal. -/
def jsonEscapeChar (c : Char) : String :=
  if c = '\\' then "\\\\"
  else if c = '"' then "\\\""
  else if c = '\n' then "\\n"
  else if c = '\r' then "\\r"
  else if c = '\t' then "\\t"
  else if c.toNat = 8 then "\\b"
  else if c.toNat = 12 then "\\f"
  else if c.toNat < 32 then "\\u" ++ hex4 c.toNat
  else String.singleton c

/-- Character-list form of the string escape. -/
def jsonEscapeList : List Char → List Char
  | [] => []
  | c :: cs => (jsonEscapeChar c).data ++ jsonEscapeList cs

/-- Body of a serialized JSON string (without the surrounding quotes). -/
def jsonEscape (s : String) : String := ⟨jsonEscapeList s.data⟩

/-- Indentation of `n` levels at two spaces per level, as produced by
`json.dumps(..., indent=2)`. -/
def indentStr (n : Nat) : String := ⟨List.replicate (2 * n) ' '⟩

mutual

/-- Python's `json.dumps(v, indent=2, ensure_ascii=False)` of a value at
nesting level `lvl`: empty containers print as `[]` / `\x7b\x7d`; non-empty
containers put each element on its own line, one level deeper, with `", "`
item separation becoming `",\n"` and `": "` after keys. -/
def jsonDumps : JsonVal → Nat → String
  | JsonVal.str s, _ => "\"" ++ jsonEscape s ++ "\""
  | JsonVal.num n, _ => toString n
  | JsonVal.bool b, _ => if b then "true" else "false"
  | JsonVal.null, _ => "null"
  | JsonVal.arr [], _ => "[]"
  | JsonVal.arr (x :: xs), lvl =>
      "[\n" ++ jsonDumpsElems (x :: xs) (lvl + 1) ++ "\n" ++ indentStr lvl ++ "]"
  | JsonVal.obj [], _ => "\x7b\x7d"
  | JsonVal.obj (f :: fs), lvl =>
      "\x7b\n" ++ jsonDumpsFields (f :: fs) (lvl + 1) ++ "\n" ++ indentStr lvl ++ "\x7d"

/-- The comma-and-newline–separated lines of a non-empty JSON array. -/
def jsonDumpsElems : List JsonVal → Nat → String
  | [], _ => ""
  | [x], lvl => indentStr lvl ++ jsonDumps x lvl
  | x :: y :: xs, lvl =>
      indentStr lvl ++ jsonDumps x lvl ++ ",\n" ++ jsonDumpsElems (y :: xs) lvl

/-- The comma-and-newline–separated lines of a non-empty JSON object. -/
def jsonDumpsFields : List (String × JsonVal) → Nat → String
  | [], _ => ""
  | [(k, v)], lvl =>
      indentStr lvl ++ "\"" ++ jsonEscape k ++ "\": " ++ jsonDumps v lvl
  | (k, v) :: f :: fs, lvl =>
      indentStr lvl ++ "\"" ++ jsonEscape k ++ "\": " ++ jsonDumps v lvl ++ ",\n" ++
        jsonDumpsFields (f :: fs) lvl

end

/-- The whitespace test of Python's `str.strip()` (restricted to the
ASCII whitespace characters, which is what the claims exercise). -/
def pyIsSpace (c : Char) : Bool :=
  c = ' ' || c = '\t' || c = '\n' || c = '\r' || c = '\x0b' || c = '\x0c'

/-- Python's `transcript.strip()`: remove leading and trailing
whitespace. -/
def pyStrip (s : String) : String :=
  ⟨(((s.data.dropWhile pyIsSpace).reverse.dropWhile pyIsSpace).reverse)⟩

/-- The per-session mutable state the app keeps in `st.session_state`
(lines 213–218): the current Minutes, the last successful pretty-printed
JSON string, and the last raw (unparsable) model output. -/
structure SessionState where
  minutes : Dict
  raw_json : String
  raw_response : String

/-- Session-state initialization on first load (lines 213–218). -/
def initSessionState : SessionState :=
  { minutes := blankMinutes, raw_json := "", raw_response := "" }

/-- A user-visible message emitted by the handlers (`st.warning`,
`st.error`, `st.success`). -/
inductive Display where
  | warning (msg : String)
  | error (msg : String)
  | success (msg : String)

/-- Outcome of the single network call `client.models.generate_content`
(plus client construction): either a response, carrying its text and the
outcome of `json.loads` on that text, or a raised exception with its
message. -/
inductive NetOutcome where
  | response (raw_text : String) (parsed : Option JsonVal)
  | exn (msg : String)

/-- The raw text carried by the fallback dictionary, i.e. Python's
`summary["raw_response"]` on the dictionary built at line 129. -/
def getRawResponse (d : Dict) : String :=
  match alistGet d "raw_response" with
  | some (JsonVal.str t) => t
  | _ => ""

/-- The generation handler (lines 224–250), run on a click of
"Generate Minutes". Returns the new session state, the message displayed,
and whether the Minutes Generator (hence the network call) was invoked:

* empty trimmed transcript → warning, nothing else happens;
* missing API key → error, nothing else happens;
* otherwise the generator runs inside `try`: any exception (from the
  network call, client construction, or the uncaught `TypeError` of
  `summarize_meeting`) reaches `except Exception` and is displayed as
  "Failed to generate minutes: <details>" with the state untouched;
* a fallback result (key `"raw_response"` present) stores the raw text and
  clears `raw_json`, leaving the prior Minutes in place, with an error
  banner; a structured result overwrites the Minutes and `raw_json` and
  clears `raw_response`. -/
def generation_handler (s : SessionState) (transcript api_key : String)
    (outcome : NetOutcome) : SessionState × Display × Bool :=
  if pyStrip transcript = "" then
    (s, Display.warning "Please provide a transcript before generating minutes.", false)
  else if api_key = "" then
    (s, Display.error
      "No Gemini API key found. Provide it via config.json, the environment, or Streamlit secrets.",
     false)
  else
    match outcome with
    | NetOutcome.exn msg =>
        (s, Display.error ("Failed to generate minutes: " ++ msg), true)
    | NetOutcome.response raw parsed =>
        match summarize_post raw parsed with
        | SummarizeResult.typeError msg =>
            (s, Display.error ("Failed to generate minutes: " ++ msg), true)
        | SummarizeResult.ok summary =>
            if alistContains summary "raw_response" then
              ({ minutes := s.minutes, raw_json := "",
                 raw_response := getRawResponse summary },
               Display.error "Model returned malformed JSON. See raw output below.", true)
            else
              ({ minutes := summary,
                 raw_json := jsonDumps (JsonVal.obj summary) 0,
                 raw_response := "" },
               Display.success "Minutes generated successfully!", true)

/-- The clear-screen handler (lines 339–344): reset Minutes to the blank
template and both stored strings to empty, whatever the prior state. -/
def clear_handler (_s : SessionState) : SessionState :=
  { minutes := blankMinutes, raw_json := "", raw_response := "" }

/-- Python truthiness of a JSON value (`if x:`): empty string, zero,
`False`, `None`, empty list and empty dict are falsy. -/
def pyTruthy : JsonVal → Bool
  | JsonVal.str s => decide (s ≠ "")
  | JsonVal.num n => decide (n ≠ 0)
  | JsonVal.bool b => b
  | JsonVal.null => false
  | JsonVal.arr xs => !xs.isEmpty
  | JsonVal.obj fs => !fs.isEmpty

/-- Python truthiness of `d.get(k)`: `None` (key absent) is falsy. -/
def pyTruthyOpt : Option JsonVal → Bool
  | none => false
  | some v => pyTruthy v

/-- The keyword arguments of the `st.download_button` call
(lines 327–337). -/
structure DownloadConfig where
  label : String
  data : String
  file_name : String
  mime : String
  disabled : Bool

/-- The download-button configuration built from the current session
state (lines 327–337): the file is named `minutes.json` and its data is
`json.dumps(st.session_state.minutes, indent=2, ensure_ascii=False)`. -/
def download_button_config (s : SessionState) : DownloadConfig :=
  { label := "⬇️ Download JSON",
    data := jsonDumps (JsonVal.obj s.minutes) 0,
    file_name := "minutes.json",
    mime := "application/json",
    disabled := !pyTruthyOpt (alistGet s.minutes "summary") &&
                !pyTruthyOpt (alistGet s.minutes "action_items") }

/-- A concrete Minutes record with non-ASCII field content, used to
exhibit the serialized form of the download data. -/
def sampleMinutes : Dict :=
  [ ("summary", JsonVal.str "Café réunion"),
    ("key_points", JsonVal.arr [JsonVal.str "á"]),
    ("decisions", JsonVal.arr []),
    ("action_items", JsonVal.arr []),
    ("risks_open_questions", JsonVal.arr []) ]

-- Sanity checks on concrete inputs.
example : load_api_key (SecretsLookup.ok "k1") (some "k2") = "k1" := rfl
example : load_api_key (SecretsLookup.ok "") (some "k2") = "k2" := rfl
example : load_api_key SecretsLookup.raises none = "" := rfl
example :
    format_action_item [("owner", "Bob"), ("task", "Write release notes"),
      ("due", "Friday"), ("priority", "Medium")] =
    "**Bob** — Write release notes | **Due:** Friday | **Priority:** Medium" := rfl
example : format_action_item [("task", "t")] = "**Unassigned** — t" := rfl
example : format_action_item [("owner", ""), ("task", "t")] = "**** — t" := rfl

/-! ### Association-list lemmas

Lookup laws for `alistGet` / `alistInsert` / `alistMerge`, leading to the
characterization of Python's `{**a, **b}`: a key bound in `b` gets its
last binding from `b`, any other key keeps its binding from `a`. -/

section AlistLemmas

variable {α : Type}

/-- First-wins combination of two lookups: the first if it succeeded,
otherwise the second. -/
def optOr {β : Type} : Option β → Option β → Option β
  | some v, _ => some v
  | none, b => b

@[simp] theorem optOr_some {β : Type} (v : β) (b : Option β) :
    optOr (some v) b = some v := rfl

@[simp] theorem optOr_none {β : Type} (b : Option β) : optOr none b = b := rfl

theorem alistGet_append (a b : List (String × α)) (k : String) :
    alistGet (a ++ b) k = optOr (alistGet a k) (alistGet b k) := by
  induction a with
  | nil => simp [alistGet]
  | cons p a ih =>
    obtain ⟨k', v⟩ := p
    by_cases h : k = k' <;> simp [alistGet, h, ih]

theorem alistGet_eq_none_of_not_mem (d : List (String × α)) (k : String)
    (h : k ∉ d.map Prod.fst) : alistGet d k = none := by
  induction d with
  | nil => rfl
  | cons p d ih =>
    obtain ⟨k', v⟩ := p
    simp only [List.map_cons, List.mem_cons] at h
    push_neg at h
    simp [alistGet, h.1, ih h.2]

theorem mem_of_alistGet_eq_some (d : List (String × α)) (k : String) (v : α)
    (h : alistGet d k = some v) : k ∈ d.map Prod.fst := by
  induction d with
  | nil => simp [alistGet] at h
  | cons p d ih =>
    obtain ⟨k', w⟩ := p
    by_cases hk : k = k'
    · simp [hk]
    · simp only [alistGet, if_neg hk] at h
      simp [ih h]

theorem alistGet_eq_none_of_contains_false (d : List (String × α)) (k : String)
    (h : alistContains d k = false) : alistGet d k = none := by
  induction d with
  | nil => rfl
  | cons p d ih =>
    obtain ⟨k', v⟩ := p
    simp only [alistContains, List.any_cons, Bool.or_eq_false_iff,
      decide_eq_false_iff_not] at h
    have hk : k ≠ k' := fun hkk => h.1 hkk.symm
    simp [alistGet, hk, ih h.2]

theorem alistGet_map_update_self (d : List (String × α)) (k : String) (v : α)
    (h : alistContains d k = true) :
    alistGet (d.map (fun p => if p.1 = k then (k, v) else p)) k = some v := by
  induction d with
  | nil => simp [alistContains] at h
  | cons p d ih =>
    obtain ⟨a, b⟩ := p
    by_cases ha : a = k
    · have hhead : ((a, b) :: d).map (fun p => if p.1 = k then (k, v) else p) =
          (k, v) :: d.map (fun p => if p.1 = k then (k, v) else p) := by
        simp [ha]
      rw [hhead]
      simp [alistGet]
    · have h' : alistContains d k = true := by
        simp only [alistContains, List.any_cons, Bool.or_eq_true,
          decide_eq_true_eq] at h
        rcases h with h | h
        · exact absurd h ha
        · simpa [alistContains] using h
      have hk : k ≠ a := fun hkk => ha hkk.symm
      have hhead : ((a, b) :: d).map (fun p => if p.1 = k then (k, v) else p) =
          (a, b) :: d.map (fun p => if p.1 = k then (k, v) else p) := by
        simp [ha]
      rw [hhead]
      simp [alistGet, hk, ih h']

theorem alistGet_map_update_ne (d : List (String × α)) (k : String) (v : α)
    (k' : String) (h : k' ≠ k) :
    alistGet (d.map (fun p => if p.1 = k then (k, v) else p)) k' = alistGet d k' := by
  induction d with
  | nil => rfl
  | cons p d ih =>
    obtain ⟨a, b⟩ := p
    by_cases ha : a = k
    · have hhead : ((a, b) :: d).map (fun p => if p.1 = k then (k, v) else p) =
          (k, v) :: d.map (fun p => if p.1 = k then (k, v) else p) := by
        simp [ha]
      have hka : k' ≠ a := ha ▸ h
      rw [hhead]
      simp [alistGet, h, hka, ih]
    · have hhead : ((a, b) :: d).map (fun p => if p.1 = k then (k, v) else p) =
          (a, b) :: d.map (fun p => if p.1 = k then (k, v) else p) := by
        simp [ha]
      rw [hhead]
      by_cases hk : k' = a <;> simp [alistGet, hk, ih]

theorem alistGet_alistInsert_self (d : List (String × α)) (k : String) (v : α) :
    alistGet (alistInsert d k v) k = some v := by
  unfold alistInsert
  by_cases h : alistContains d k = true
  · simp [h, alistGet_map_update_self d k v h]
  · have h' : alistContains d k = false := by simpa using h
    rw [if_neg (by simp [h']), alistGet_append,
      alistGet_eq_none_of_contains_false d k h']
    simp [alistGet]

theorem alistGet_alistInsert_ne (d : List (String × α)) (k : String) (v : α)
    (k' : String) (h : k' ≠ k) :
    alistGet (alistInsert d k v) k' = alistGet d k' := by
  unfold alistInsert
  by_cases hc : alistContains d k = true
  · simp [hc, alistGet_map_update_ne d k v k' h]
  · rw [if_neg (by simpa using hc), alistGet_append]
    cases hd : alistGet d k' with
    | some w => simp
    | none => simp [alistGet, h]

theorem alistGet_alistMerge (b a : List (String × α)) (k : String) :
    alistGet (alistMerge a b) k =
      optOr (alistGet b.reverse k) (alistGet a k) := by
  induction b generalizing a with
  | nil => simp [alistMerge, alistGet]
  | cons p b ih =>
    obtain ⟨kb, vb⟩ := p
    have hstep : alistMerge a ((kb, vb) :: b) = alistMerge (alistInsert a kb vb) b := rfl
    rw [hstep, ih, List.reverse_cons, alistGet_append]
    cases hb : alistGet b.reverse k with
    | some w => simp
    | none =>
      by_cases hk : k = kb
      · subst hk
        simp [alistGet, alistGet_alistInsert_self]
      · simp [alistGet, hk, alistGet_alistInsert_ne a kb vb k hk]

theorem alistGet_reverse_of_nodup (b : List (String × α)) (k : String)
    (hnd : (b.map Prod.fst).Nodup) :
    alistGet b.reverse k = alistGet b k := by
  induction b with
  | nil => rfl
  | cons p b ih =>
    obtain ⟨a, w⟩ := p
    simp only [List.map_cons, List.nodup_cons] at hnd
    rw [List.reverse_cons, alistGet_append, ih hnd.2]
    by_cases hk : k = a
    · subst hk
      rw [alistGet_eq_none_of_not_mem b k hnd.1]
      simp [alistGet]
    · cases hb : alistGet b k with
      | some v => simp [alistGet, hk, hb]
      | none => simp [alistGet, hk, hb]

/-- The lookup law of Python's `{**a, **b}` when `b` has no duplicate
keys: a key bound in `b` gets `b`'s value, any other key keeps `a`'s. -/
theorem alistGet_alistMerge_nodup {α : Type} (a b : List (String × α)) (k : String)
    (hnd : (b.map Prod.fst).Nodup) :
    alistGet (alistMerge a b) k =
      optOr (alistGet b k) (alistGet a k) := by
  rw [alistGet_alistMerge, alistGet_reverse_of_nodup b k hnd]

/-- Keys outside the Minutes schema are unbound in the blank template. -/
theorem blankMinutes_get_none (k : String) (h : k ∉ minutesKeys) :
    alistGet blankMinutes k = none := by
  simp only [minutesKeys, List.mem_cons, List.not_mem_nil, or_false, not_or] at h
  obtain ⟨h1, h2, h3, h4, h5⟩ := h
  simp [blankMinutes, alistGet, h1, h2, h3, h4, h5]

end AlistLemmas


/-! ### Claim theorems -/

/-- C1: for every model response whose text parses as a JSON object using
only the five Minutes fields, `summarize_meeting` returns a dictionary
with all five fields, each absent field bound to its empty default from
the blank template and each present field preserved exactly; and merging
an already-complete Minutes object over the empty template yields that
same object (as a key-value mapping). -/
theorem summarize_merge_spec (raw : String) (fields : Dict)
    (hsub : ∀ p ∈ fields, p.1 ∈ minutesKeys)
    (hnd : (fields.map Prod.fst).Nodup) :
    ∃ m, summarize_post raw (some (JsonVal.obj fields)) = SummarizeResult.ok m ∧
      (∀ k ∈ minutesKeys, (alistGet m k).isSome = true) ∧
      (∀ k v, alistGet fields k = some v → alistGet m k = some v) ∧
      (∀ k ∈ minutesKeys, alistGet fields k = none →
        alistGet m k = alistGet blankMinutes k) ∧
      ((∀ k ∈ minutesKeys, (alistGet fields k).isSome = true) →
        ∀ k, alistGet m k = alistGet fields k) := by
  have hm : ∀ k, alistGet (alistMerge blankMinutes fields) k =
      optOr (alistGet fields k) (alistGet blankMinutes k) :=
    fun k => alistGet_alistMerge_nodup blankMinutes fields k hnd
  refine ⟨alistMerge blankMinutes fields, rfl, ?_, ?_, ?_, ?_⟩
  · intro k hk
    rw [hm k]
    cases hf : alistGet fields k with
    | some v => simp
    | none =>
      rw [optOr_none]
      simp only [minutesKeys, List.mem_cons, List.not_mem_nil, or_false] at hk
      rcases hk with rfl | rfl | rfl | rfl | rfl <;> rfl
  · intro k v hf
    rw [hm k, hf, optOr_some]
  · intro k _ hf
    rw [hm k, hf, optOr_none]
  · intro hall k
    rw [hm k]
    by_cases hk : k ∈ minutesKeys
    · have hs := hall k hk
      cases hf : alistGet fields k with
      | some v => rw [optOr_some]
      | none => rw [hf] at hs; simp at hs
    · have hfn : alistGet fields k = none := by
        cases hf : alistGet fields k with
        | none => rfl
        | some v =>
          exfalso
          have hmem := mem_of_alistGet_eq_some fields k v hf
          rw [List.mem_map] at hmem
          obtain ⟨p, hp, hpk⟩ := hmem
          exact hk (hpk ▸ hsub p hp)
      rw [hfn, optOr_none, blankMinutes_get_none k hk]

/-- Witness for C1 at a parsed object carrying only the `summary` and
`decisions` fields. -/
theorem summarize_merge_spec_witness :
    ∃ m, summarize_post "x"
        (some (JsonVal.obj [("summary", JsonVal.str "s"),
          ("decisions", JsonVal.arr [JsonVal.str "d1"])])) = SummarizeResult.ok m ∧
      (∀ k ∈ minutesKeys, (alistGet m k).isSome = true) ∧
      (∀ k v, alistGet [("summary", JsonVal.str "s"),
          ("decisions", JsonVal.arr [JsonVal.str "d1"])] k = some v →
        alistGet m k = some v) ∧
      (∀ k ∈ minutesKeys, alistGet [("summary", JsonVal.str "s"),
          ("decisions", JsonVal.arr [JsonVal.str "d1"])] k = none →
        alistGet m k = alistGet blankMinutes k) ∧
      ((∀ k ∈ minutesKeys, (alistGet [("summary", JsonVal.str "s"),
          ("decisions", JsonVal.arr [JsonVal.str "d1"])] k).isSome = true) →
        ∀ k, alistGet m k = alistGet [("summary", JsonVal.str "s"),
          ("decisions", JsonVal.arr [JsonVal.str "d1"])] k) :=
  summarize_merge_spec "x" [("summary", JsonVal.str "s"),
      ("decisions", JsonVal.arr [JsonVal.str "d1"])]
    (by
      intro p hp
      simp only [List.mem_cons, List.not_mem_nil, or_false] at hp
      rcases hp with rfl | rfl <;> simp [minutesKeys])
    (by simp)

/-! ### String helpers -/

theorem string_eq_of_data_eq (a b : String) (h : a.data = b.data) : a = b := by
  cases a with
  | mk la =>
    cases b with
    | mk lb => exact congrArg String.mk h

theorem intercalate_go_append (s : String) (l : List String) (acc : String) :
    ∃ r, String.intercalate.go acc s l = acc ++ r := by
  induction l generalizing acc with
  | nil => exact ⟨"", (String.append_empty acc).symm⟩
  | cons x xs ih =>
    obtain ⟨r, hr⟩ := ih (acc ++ s ++ x)
    exact ⟨s ++ x ++ r, by rw [String.intercalate.go, hr]; simp [String.append_assoc]⟩

theorem intercalate_head (s a : String) (l : List String) :
    ∃ r, String.intercalate s (a :: l) = a ++ r :=
  intercalate_go_append s l a

/-- C2: `load_api_key` returns the first non-empty credential in the
priority order secrets store, then environment variable, and the empty
string when neither source yields a non-empty value; an exception from
the secrets lookup behaves exactly like an absent secret (it is caught,
never propagated — the function is total). -/
theorem load_api_key_priority (secrets : SecretsLookup) (env : Option String) :
    (∀ v, secrets = SecretsLookup.ok v → v ≠ "" → load_api_key secrets env = v) ∧
    ((secrets = SecretsLookup.raises ∨ secrets = SecretsLookup.ok "") →
      ∀ w, env = some w → w ≠ "" → load_api_key secrets env = w) ∧
    ((secrets = SecretsLookup.raises ∨ secrets = SecretsLookup.ok "") →
      (env = none ∨ env = some "") → load_api_key secrets env = "") := by
  refine ⟨?_, ?_, ?_⟩
  · rintro v rfl hv
    simp [load_api_key, hv]
  · rintro (rfl | rfl) w rfl hw <;> simp [load_api_key, hw]
  · rintro (rfl | rfl) (rfl | rfl) <;> simp [load_api_key]

/-- Witness for C2: a non-empty secret wins over a non-empty environment
variable. -/
theorem load_api_key_priority_witness :
    load_api_key (SecretsLookup.ok "secret-key") (some "env-key") = "secret-key" :=
  (load_api_key_priority (SecretsLookup.ok "secret-key") (some "env-key")).1
    "secret-key" rfl (by decide)

/-- C3: on any response text whose parse fails, `summarize_meeting`
returns the dictionary whose only key is `raw_response`, bound to the
response text itself. -/
theorem parse_failure_raw_roundtrip (raw : String) :
    summarize_post raw none = SummarizeResult.ok [("raw_response", JsonVal.str raw)] ∧
    ([("raw_response", JsonVal.str raw)] : Dict).map Prod.fst = ["raw_response"] ∧
    alistGet [("raw_response", JsonVal.str raw)] "raw_response" = some (JsonVal.str raw) := by
  refine ⟨rfl, rfl, ?_⟩
  simp [alistGet]

/-- C4: with all four fields present and non-empty, the formatted line is
owner, task, due and priority joined by the delimiter `" | "`; with only
the task present, the line is `"**Unassigned** — <task>"` with no
trailing delimiters. -/
theorem format_action_item_spec (item : List (String × String)) (o t d p : String) :
    (alistGet item "owner" = some o → alistGet item "task" = some t →
      alistGet item "due" = some d → alistGet item "priority" = some p →
      o ≠ "" → t ≠ "" → d ≠ "" → p ≠ "" →
      format_action_item item =
        "**" ++ o ++ "** — " ++ t ++ " | " ++ "**Due:** " ++ d ++ " | " ++
          "**Priority:** " ++ p) ∧
    format_action_item [("task", t)] = "**Unassigned** — " ++ t := by
  constructor
  · intro ho ht hd hp _ _ hd' hp'
    unfold format_action_item
    rw [ho, ht, hd, hp]
    simp only [Option.getD_some, if_pos hd', if_pos hp']
    have h3 : ∀ x y z : String,
        String.intercalate " | " [x, y, z] = x ++ " | " ++ y ++ " | " ++ z :=
      fun x y z => rfl
    simp only [List.cons_append, List.nil_append]
    rw [h3]
    simp only [← String.append_assoc]
  · rfl

/-- Witness for C4 at the spec's end-to-end example action item. -/
theorem format_action_item_spec_witness :
    format_action_item [("owner", "Bob"), ("task", "Write release notes"),
        ("due", "Friday"), ("priority", "Medium")] =
      "**" ++ "Bob" ++ "** — " ++ "Write release notes" ++ " | " ++ "**Due:** " ++
        "Friday" ++ " | " ++ "**Priority:** " ++ "Medium" :=
  (format_action_item_spec [("owner", "Bob"), ("task", "Write release notes"),
      ("due", "Friday"), ("priority", "Medium")] "Bob" "Write release notes"
      "Friday" "Medium").1
    rfl rfl rfl rfl (by decide) (by decide) (by decide) (by decide)

/-- C5: an exception raised by the network call is not caught inside
`summarize_meeting` (in the model it reaches the handler directly as a
`NetOutcome.exn`); the generation handler's catch-all displays
"Failed to generate minutes: <details>" and leaves the session state —
in particular the prior Minutes record — entirely unchanged. -/
theorem network_exception_spec (s : SessionState) (t k msg : String)
    (ht : pyStrip t ≠ "") (hk : k ≠ "") :
    generation_handler s t k (NetOutcome.exn msg) =
      (s, Display.error ("Failed to generate minutes: " ++ msg), true) := by
  simp [generation_handler, ht, hk]

/-- Witness for C5 on a concrete failing generation. -/
theorem network_exception_spec_witness :
    generation_handler initSessionState "hello" "key" (NetOutcome.exn "boom") =
      (initSessionState, Display.error ("Failed to generate minutes: " ++ "boom"), true) :=
  network_exception_spec initSessionState "hello" "key" "boom" (by decide) (by decide)

/-- C6: with an empty trimmed transcript the handler shows a warning and
does not invoke the generator; with a missing key it shows an error and
does not invoke the generator; and the generator (hence the network
call) is invoked exactly when the trimmed transcript and the key are
both non-empty. -/
theorem generation_guards (s : SessionState) (t k : String) (o : NetOutcome) :
    (pyStrip t = "" → generation_handler s t k o =
      (s, Display.warning "Please provide a transcript before generating minutes.",
       false)) ∧
    (pyStrip t ≠ "" → k = "" → generation_handler s t k o =
      (s, Display.error
        "No Gemini API key found. Provide it via config.json, the environment, or Streamlit secrets.",
       false)) ∧
    ((generation_handler s t k o).2.2 = true ↔ (pyStrip t ≠ "" ∧ k ≠ "")) := by
  refine ⟨?_, ?_, ?_⟩
  · intro h
    simp [generation_handler, h]
  · intro h hk
    simp [generation_handler, h, hk]
  · by_cases h : pyStrip t = ""
    · simp [generation_handler, h]
    · by_cases hk : k = ""
      · simp [generation_handler, h, hk]
      · simp only [h, hk, iff_true, ne_eq, not_false_iff, and_self]
        cases o with
        | exn m => simp [generation_handler, h, hk]
        | response raw parsed =>
          cases hs : summarize_post raw parsed with
          | typeError m => simp [generation_handler, h, hk, hs]
          | ok d =>
            by_cases hc : alistContains d "raw_response" <;>
              simp [generation_handler, h, hk, hs, hc]

/-- Witness for C6: an all-whitespace transcript is refused with a
warning before any network activity. -/
theorem generation_guards_witness :
    generation_handler initSessionState "  " "key" (NetOutcome.exn "unreachable") =
      (initSessionState,
       Display.warning "Please provide a transcript before generating minutes.",
       false) :=
  (generation_guards initSessionState "  " "key" (NetOutcome.exn "unreachable")).1
    (by decide)

/-- C7: the clear action resets the session's Minutes to the blank
template — which binds all five fields to their empty defaults — and
resets the stored raw JSON string and raw model output to empty,
regardless of the prior state. -/
theorem clear_resets (s : SessionState) :
    clear_handler s =
      { minutes := blankMinutes, raw_json := "", raw_response := "" } ∧
    alistGet blankMinutes "summary" = some (JsonVal.str "") ∧
    alistGet blankMinutes "key_points" = some (JsonVal.arr []) ∧
    alistGet blankMinutes "decisions" = some (JsonVal.arr []) ∧
    alistGet blankMinutes "action_items" = some (JsonVal.arr []) ∧
    alistGet blankMinutes "risks_open_questions" = some (JsonVal.arr []) ∧
    (blankMinutes.map Prod.fst = minutesKeys) := by
  exact ⟨rfl, rfl, rfl, rfl, rfl, rfl, rfl⟩

/-- C8: the download button serves a file named `minutes.json` whose data
is the current Minutes serialized by `json.dumps(..., indent=2,
ensure_ascii=False)`; the escape leaves every string made of ordinary
characters (in particular all non-ASCII) literally unchanged, and a
concrete Minutes record with accented content serializes to the
two-space-indented text with the accents unescaped. -/
theorem download_button_spec (s : SessionState) :
    (download_button_config s).file_name = "minutes.json" ∧
    (download_button_config s).data = jsonDumps (JsonVal.obj s.minutes) 0 ∧
    (download_button_config s).mime = "application/json" ∧
    (∀ u : String, (∀ c ∈ u.data, 32 ≤ c.toNat ∧ c ≠ '"' ∧ c ≠ '\\') →
      jsonEscape u = u) ∧
    jsonDumps (JsonVal.obj sampleMinutes) 0 =
      "\x7b\n  \"summary\": \"Café réunion\",\n  \"key_points\": [\n    \"á\"\n  ],\n  \"decisions\": [],\n  \"action_items\": [],\n  \"risks_open_questions\": []\n\x7d" := by
  refine ⟨rfl, rfl, rfl, ?_, rfl⟩
  intro u hu
  have key : ∀ l : List Char, (∀ c ∈ l, 32 ≤ c.toNat ∧ c ≠ '"' ∧ c ≠ '\\') →
      jsonEscapeList l = l := by
    intro l
    induction l with
    | nil => intro _; rfl
    | cons c cs ih =>
      intro hl
      have hc := hl c (List.mem_cons_self c cs)
      have h32 := hc.1
      have hchar : jsonEscapeChar c = String.singleton c := by
        unfold jsonEscapeChar
        rw [if_neg hc.2.2, if_neg hc.2.1,
          if_neg (fun hn => by subst hn; exact absurd h32 (by decide)),
          if_neg (fun hn => by subst hn; exact absurd h32 (by decide)),
          if_neg (fun hn => by subst hn; exact absurd h32 (by decide)),
          if_neg (fun hn => by omega), if_neg (fun hn => by omega),
          if_neg (by omega)]
      rw [jsonEscapeList, hchar, ih (fun x hx => hl x (List.mem_cons_of_mem c hx))]
      rfl
  have h2 := key u.data hu
  unfold jsonEscape
  rw [h2]

/-- Witness for C8: the accented string passes through the escape
unchanged. -/
theorem download_button_spec_witness :
    (download_button_config initSessionState).file_name = "minutes.json" ∧
    jsonEscape "Café" = "Café" :=
  ⟨(download_button_spec initSessionState).1,
   (download_button_spec initSessionState).2.2.2.1 "Café" (by decide)⟩

/-- C9: a response text that is valid JSON but not a JSON object (here
the array `[]`) makes the merge raise a `TypeError` that
`summarize_meeting` does not catch (its `except` covers only
`JSONDecodeError`), so neither a merged Minutes record nor the raw-text
fallback is returned; the exception reaches the handler's catch-all,
which reports it and leaves the state unchanged. -/
theorem nonobject_json_typeerror (s : SessionState) :
    summarize_post "[]" (some (JsonVal.arr [])) =
      SummarizeResult.typeError "'list' object is not a mapping" ∧
    generation_handler s "transcript" "key"
        (NetOutcome.response "[]" (some (JsonVal.arr []))) =
      (s, Display.error "Failed to generate minutes: 'list' object is not a mapping",
       true) :=
  ⟨rfl, rfl⟩

/-- Any line formatted from an item whose head renders as the empty owner
starts with the degenerate marker. -/
theorem format_head_prefix (t : String) (L : List String) :
    ∃ rest, String.intercalate " | " (("**" ++ "" ++ "** — " ++ t) :: L) =
      "**** — " ++ rest := by
  obtain ⟨r, hr⟩ := intercalate_head " | " ("**" ++ "" ++ "** — " ++ t) L
  refine ⟨t ++ r, ?_⟩
  rw [hr]
  simp only [← String.append_assoc]
  rfl

/-- C10: the defaults of `format_action_item` apply only to absent keys:
when the `owner` key is present but bound to the empty string, the line
begins with `"**** — "` (not with `"**Unassigned**"`). -/
theorem format_empty_owner (item : List (String × String))
    (h : alistGet item "owner" = some "") :
    ∃ rest, format_action_item item = "**** — " ++ rest := by
  simp only [format_action_item]
  rw [h]
  simp only [Option.getD_some]
  repeat' split
  all_goals try simp only [List.cons_append, List.nil_append]
  all_goals exact format_head_prefix _ _

/-- Witness for C10 at an item with an explicitly empty owner. -/
theorem format_empty_owner_witness :
    ∃ rest, format_action_item [("owner", ""), ("task", "Ship v2")] =
      "**** — " ++ rest :=
  format_empty_owner [("owner", ""), ("task", "Ship v2")] rfl
